import Mathlib

/-!
Verification development for the git-editor history rewriting tool
(src/git-editor.py).  Naive timestamps are modelled as integers counting
microseconds since the Unix epoch, matching the resolution of Python
`datetime`/`timedelta` arithmetic; all arithmetic the script performs on
timestamps is exact in that unit except for `timedelta / int`, which
rounds the quotient to the nearest microsecond.
-/

/-- Models CPython `_divide_and_round` (the implementation of
`timedelta.__truediv__` with an `int` divisor): floor-divide `a` by `b`
and round to the nearest integer, ties to even.  Modelled for positive
divisors, the only case reachable in the source (the divisor is `n - 1`
with `n > 1`); for a positive divisor Python's floor division and
remainder agree with Lean's Euclidean `/` and `%` used here. -/
def divide_and_round (a b : Int) : Int :=
  let q := a / b
  let r := a % b
  if 2 * r > b ∨ (2 * r = b ∧ q % 2 = 1) then q + 1 else q

/-- The per-commit step from line 215 of git-editor.py:
`step = (et - st) / (n - 1) if n > 1 else timedelta()`, in microseconds. -/
def step_calc (st et : Int) (n : Nat) : Int :=
  if 1 < n then divide_and_round (et - st) ((n : Int) - 1) else 0

/-- The timestamp assigned to the i-th commit, line 254 of git-editor.py:
`dt = st + step * i if n > 1 else st`. -/
def nth_ts (st stepv : Int) (n i : Nat) : Int :=
  if 1 < n then st + stepv * (i : Int) else st

/-- The whole sequence of timestamps the rewrite loop assigns to the
`n` commits (lines 248 and 254 of git-editor.py). -/
def distribute (n : Nat) (st et : Int) : List Int :=
  (List.range n).map (nth_ts st (step_calc st et n) n)

/-! ### String helpers from the source and the Python runtime -/

/-- The whitespace characters `str.strip()` removes (ASCII fragment). -/
def pySpace (c : Char) : Bool :=
  (c == ' ') || (c == Char.ofNat 9) || (c == Char.ofNat 10) ||
    (c == Char.ofNat 13) || (c == Char.ofNat 11) || (c == Char.ofNat 12)

/-- Strip `pySpace` characters from both ends of a character list. -/
def stripChars (l : List Char) : List Char :=
  ((l.dropWhile pySpace).reverse.dropWhile pySpace).reverse

/-- Models Python `str.strip()` (ASCII whitespace fragment). -/
def pyStrip (s : String) : String := String.mk (stripChars s.data)

/-- Lower-case one ASCII character. -/
def asciiLower (c : Char) : Char :=
  if 65 ≤ c.toNat ∧ c.toNat ≤ 90 then Char.ofNat (c.toNat + 32) else c

/-- Models Python `str.lower()` on the ASCII fragment used here. -/
def pyLower (s : String) : String := String.mk (s.data.map asciiLower)

/-- `clean_input` from git-editor.py line 57: drop every character whose
code point is below that of a space, and the delete character 0x7f. -/
def clean_input (s : String) : String :=
  String.mk (s.data.filter (fun c => 32 ≤ c.toNat && c.toNat ≠ 127))

/-- `escape_shell_single_quote` from git-editor.py line 69: replace each
single quote by the five-character sequence quote, double-quote, quote,
double-quote, quote. -/
def escape_shell_single_quote (s : String) : String :=
  String.mk (s.data.flatMap (fun c =>
    if c = Char.ofNat 39 then
      [Char.ofNat 39, Char.ofNat 34, Char.ofNat 39, Char.ofNat 34, Char.ofNat 39]
    else [c]))

/-- Value of a run of decimal digits. -/
def digitsVal (l : List Char) : Nat := l.foldl (fun a c => 10 * a + (c.toNat - 48)) 0

/-- A nonempty all-digit run, or failure. -/
def digitsToNat (l : List Char) : Option Nat :=
  if !l.isEmpty && l.all Char.isDigit then some (digitsVal l) else none

/-- Models Python `int(str)` on the fragment exercised by the source:
optional surrounding whitespace, an optional single leading sign, then a
nonempty run of ASCII decimal digits (digit-group underscores and
non-ASCII digits are not modelled). -/
def pyInt (l : List Char) : Option Int :=
  match stripChars l with
  | [] => none
  | c :: rest =>
    if c = '+' then (digitsToNat rest).map (fun v => (v : Int))
    else if c = '-' then (digitsToNat rest).map (fun v => -(v : Int))
    else (digitsToNat (c :: rest)).map (fun v => (v : Int))

/-- Models Python `str.zfill(w)`: left-pad with zeros to width `w`,
keeping a leading sign in front of the padding. -/
def pyZfill (l : List Char) (w : Nat) : List Char :=
  if w ≤ l.length then l
  else
    match l with
    | [] => List.replicate w '0'
    | c :: cs =>
      if c = '+' ∨ c = '-' then c :: (List.replicate (w - (cs.length + 1)) '0' ++ cs)
      else List.replicate (w - (c :: cs).length) '0' ++ (c :: cs)

/-- The inline timezone parsing of git-editor.py lines 217-242.  Returns
the signed offset in minutes (`timedelta(hours=hh, minutes=mm) * sign`)
together with the git-format string built as
`sign ++ hh.zfill(2) ++ mm.zfill(2)`.  Python's two-element unpacking of
`time_part.split(":")` succeeds exactly when the part after the sign
contains exactly one colon; that is rendered here as a split at the first
colon plus a check that the tail is colon-free. -/
def parse_offset (s : String) : Option (Int × String) :=
  match s.data with
  | [] => none
  | sg :: rest =>
    if sg = '+' ∨ sg = '-' then
      let hh := rest.takeWhile (fun c => c ≠ ':')
      match rest.dropWhile (fun c => c ≠ ':') with
      | [] => none
      | _ :: mm =>
        if mm.contains ':' then none
        else
          match pyInt hh, pyInt mm with
          | some h, some m =>
            if h < 0 ∨ h > 14 ∨ m < 0 ∨ m > 59 then none
            else some ((if sg = '+' then 1 else -1) * (h * 60 + m),
              String.mk ((if sg = '+' then '+' else '-') :: (pyZfill hh 2 ++ pyZfill mm 2)))
          | _, _ => none
    else none

/-- Modelled from the spec (section 4.2), for comparison with
`parse_offset`: the strict grammar `("+"|"-") HH ":" MM` with exactly two
digits per field, `HH` in [00,14], `MM` in [00,59]. -/
def spec_grammar (s : String) : Bool :=
  match s.data with
  | [sg, a, b, c, d, e] =>
    (sg == '+' || sg == '-') && a.isDigit && b.isDigit && (c == ':') &&
      d.isDigit && e.isDigit &&
      decide (digitsVal [a, b] ≤ 14) && decide (digitsVal [d, e] ≤ 59)
  | _ => false

/-- Modelled from the spec (section 4.2 plus the padding-policy remark in
section 8): the same grammar but with one- or two-digit fields allowed. -/
def spec_grammar_lenient (s : String) : Bool :=
  match s.data with
  | [] => false
  | sg :: rest =>
    (sg == '+' || sg == '-') &&
      (match rest.dropWhile (fun c => c ≠ ':') with
       | [] => false
       | _ :: mm =>
         let hh := rest.takeWhile (fun c => c ≠ ':')
         !(mm.contains ':') && !hh.isEmpty && !mm.isEmpty &&
           decide (hh.length ≤ 2) && decide (mm.length ≤ 2) &&
           hh.all Char.isDigit && mm.all Char.isDigit &&
           decide (digitsVal hh ≤ 14) && decide (digitsVal mm ≤ 59))

/-- The exact language `parse_offset` accepts: a sign, then two colon-free
fields separated by a single colon, each accepted by Python `int()` with a
value in [0,14] resp. [0,59]. -/
def PyTzGrammar (s : String) : Prop :=
  ∃ sg hh mm h m,
    s.data = sg :: (hh ++ ':' :: mm) ∧ (sg = '+' ∨ sg = '-') ∧
    ':' ∉ hh ∧ ':' ∉ mm ∧
    pyInt hh = some h ∧ pyInt mm = some m ∧
    0 ≤ h ∧ h ≤ 14 ∧ 0 ≤ m ∧ m ≤ 59

/-! ### Calendar arithmetic and date formatting

Models the proleptic-Gregorian rendering performed by
`datetime.strftime("%Y-%m-%d %H:%M:%S ...")`, via the standard
civil-from-days conversion. -/

/-- Convert a count of days since 1970-01-01 to (year, month, day) in the
proleptic Gregorian calendar. -/
def civilFromDays (z : Int) : Int × Nat × Nat :=
  let z' := z + 719468
  let era := z' / 146097
  let doe := (z' - era * 146097).toNat
  let yoe := (doe - doe / 1460 + doe / 36524 - doe / 146096) / 365
  let doy := doe - (365 * yoe + yoe / 4 - yoe / 100)
  let mp := (5 * doy + 2) / 153
  let d := doy - (153 * mp + 2) / 5 + 1
  let m := if mp < 10 then mp + 3 else mp - 9
  ((yoe : Int) + era * 400 + (if m ≤ 2 then 1 else 0), m, d)

/-- Convert (year, month, day) to a count of days since 1970-01-01. -/
def daysFromCivil (y : Int) (m d : Nat) : Int :=
  let y' := if m ≤ 2 then y - 1 else y
  let era := y' / 400
  let yoe := (y' - era * 400).toNat
  let mp := if 2 < m then m - 3 else m + 9
  let doy := (153 * mp + 2) / 5 + d - 1
  let doe := yoe * 365 + yoe / 4 - yoe / 100 + doy
  era * 146097 + (doe : Int) - 719468

/-- Microseconds since the epoch of a naive civil timestamp. -/
def microOfCivil (y : Int) (mo d h mi s : Nat) : Int :=
  (daysFromCivil y mo d * 86400 + (h * 3600 + mi * 60 + s : Nat)) * 1000000

/-- Zero-pad a natural number to two digits (`%d`, `%m`, `%H`, `%M`, `%S`). -/
def pad2 (n : Nat) : String := if n < 10 then "0" ++ toString n else toString n

/-- Render a year as `%Y` does for the years reachable here. -/
def pad4 (y : Int) : String :=
  let n := y.toNat
  (if n < 10 then "000" else if n < 100 then "00" else if n < 1000 then "0" else "") ++
    toString n

/-- Models line 258 of git-editor.py:
`dt_with_tz.strftime(f"%Y-%m-%d %H:%M:%S {tz_git_format}")` applied to a
naive timestamp given in microseconds since the epoch. -/
def formatGitDate (t : Int) (tzFmt : String) : String :=
  let days := t / 86400000000
  let rem := (t - days * 86400000000).toNat
  let secs := rem / 1000000
  let c := civilFromDays days
  pad4 c.1 ++ "-" ++ pad2 c.2.1 ++ "-" ++ pad2 c.2.2 ++ " " ++
    pad2 (secs / 3600) ++ ":" ++ pad2 (secs % 3600 / 60) ++ ":" ++ pad2 (secs % 60) ++
    " " ++ tzFmt

/-- Models line 256 of git-editor.py: `dt_with_tz = dt + tz_delta`, the
arithmetic addition of the signed offset (in minutes) to the naive
timestamp (in microseconds). -/
def applyTz (t : Int) (tzMinutes : Int) : Int := t + tzMinutes * 60000000

/-! ### The generated rebase instruction script -/

/-- One line of the generated rebase todo script: either a `pick` of an
original commit, or the `exec git commit --amend` instruction that rewrites
it.  The `exec` constructor records the values interpolated into the shell
command at line 262 of git-editor.py: `GIT_COMMITTER_NAME`,
`GIT_COMMITTER_EMAIL`, the optional `GIT_COMMITTER_DATE`/`GIT_AUTHOR_DATE`
value (the same string is used for both), and the `--author` argument. -/
inductive ScriptLine where
  | pick (hash : String)
  | exec (committerName committerEmail : String) (dateEnv : Option String) (authorArg : String)
deriving DecidableEq

/-- The date string assigned to commit `i`, lines 252-259 of git-editor.py:
present only when dates are being edited (`st` is non-None exactly then). -/
def dateFor (editDates : Bool) (st : Option Int) (stepv : Int) (n : Nat)
    (tzMin : Int) (tzFmt : String) (i : Nat) : Option String :=
  if editDates then
    match st with
    | some stv => some (formatGitDate (applyTz (nth_ts stv stepv n i) tzMin) tzFmt)
    | none => none
  else none

/-- The loop body of lines 248-263: one `pick` and one `exec` per commit,
in order, with a running index. -/
def buildScriptAux (ea ee : String) (df : Nat → Option String) :
    Nat → List String → List ScriptLine
  | _, [] => []
  | i, c :: cs =>
    .pick c :: .exec ea ee (df i) (ea ++ " <" ++ ee ++ ">") ::
      buildScriptAux ea ee df (i + 1) cs

/-- The whole instruction script of lines 245-264: the author and email are
shell-escaped once, then the loop emits a `pick`/`exec` pair per commit. -/
def buildScript (commits : List String) (author email : String)
    (df : Nat → Option String) : List ScriptLine :=
  buildScriptAux (escape_shell_single_quote author) (escape_shell_single_quote email)
    df 0 commits

/-- The commit hash of a `pick` line. -/
def pickTarget : ScriptLine → Option String
  | .pick h => some h
  | .exec .. => none

/-- Whether a script line is a rewrite (`exec`) instruction. -/
def isExecLine : ScriptLine → Bool
  | .exec .. => true
  | .pick _ => false

/-! ### The orchestration of `main` (git-editor.py lines 104-319)

`main` is modelled as a pure function of a `World`: the command-line
arguments, every string the operator would type at a prompt, and the
observable replies of the external collaborators (filesystem, git
subprocesses, the ISO-timestamp parser).  The function returns the exit
code, which exit path was taken, the ordered list of externally visible
actions, the error messages, and the generated rebase script. -/

/-- An externally visible action of one run, in program order: the
interactive prompts (`input()` calls) and the side-effecting git
operations.  `remoteSet` covers both `git remote add` and
`git remote set-url` in `ensure_remote`. -/
inductive Event where
  | promptRemoteUrl | promptEditDates | promptStartDate | promptEndDate
  | promptAuthorName | promptAuthorEmail | promptDegenerate | promptPush
  | remoteSet | scriptWrite | rebaseRun | scriptRemove | reflogExpire | gcRun | pushRun
deriving DecidableEq

/-- Which exit path a run took. -/
inductive ExitReason where
  | endWithoutStart | badRepo | statusFail | dirtyWorktree | missingIdentity
  | emptyHistory | badTimestamp | endBeforeStart | degenerateDeclined
  | badTimezone | rebaseFailed | success
deriving DecidableEq

/-- The observable outcome of one run of `main`. -/
structure RunResult where
  exit : Nat
  reason : ExitReason
  events : List Event
  errLines : List String
  script : List ScriptLine
deriving DecidableEq

/-- Every input `main` consumes, gathered up front.  Flag strings use `""`
for an absent flag (Python tests them for truthiness, so an empty flag and
an absent one behave identically).  `configUserName`/`configUserEmail`
carry the result of `git_config` (already stripped, `""` on failure).
The timestamp strings themselves (flags, prompts, or the `datetime.now()`
default) reach the computation only through `datetime.fromisoformat`,
whose outcome is recorded as `isoStart`/`isoEnd` in microseconds since the
epoch (`none` models a raised exception). -/
structure World where
  argRemoteUrl : String
  argStartTime : String
  argEndTime : String
  argAuthorName : String
  argAuthorEmail : String
  argForcePush : Bool
  argTimezone : String
  promptRemoteUrl : String
  promptEditDates : String
  promptAuthorName : String
  promptAuthorEmail : String
  promptDegenerate : String
  promptPush : String
  repoIsGit : Bool
  statusOk : Bool
  statusOut : String
  statusErr : String
  configUserName : String
  configUserEmail : String
  commits : List String
  isoStart : Option Int
  isoEnd : Option Int
  rebaseOk : Bool
  rebaseOut : String
  rebaseErr : String
deriving DecidableEq

/-- Models `input(...).strip().lower() in ("y", "yes")`. -/
def yes_answer (s : String) : Bool :=
  let t := pyLower (pyStrip s)
  (t == "y") || (t == "yes")

/-- Whether an event mutates the repository (remote config or history). -/
def isMutation : Event → Bool
  | .remoteSet | .rebaseRun | .reflogExpire | .gcRun | .pushRun => true
  | _ => false

/-- Lines 266-319: write the sequence-editor script, run
`git rebase -i --root`, delete the script, and on success run the reflog
expiry, `git gc`, and the (optionally confirmed) force push. -/
def runRebase (w : World) (ev : List Event) (script : List ScriptLine) : RunResult :=
  let ev1 := ev ++ [.scriptWrite, .rebaseRun, .scriptRemove]
  if w.rebaseOk then
    let ev2 := ev1 ++ [.reflogExpire, .gcRun]
    if w.argForcePush then
      { exit := 0, reason := .success, events := ev2 ++ [.pushRun], errLines := [],
        script := script }
    else
      let ev3 := ev2 ++ [.promptPush]
      if yes_answer w.promptPush then
        { exit := 0, reason := .success, events := ev3 ++ [.pushRun], errLines := [],
          script := script }
      else
        { exit := 0, reason := .success, events := ev3, errLines := [], script := script }
  else
    { exit := 1, reason := .rebaseFailed, events := ev1,
      errLines := ["Error during rebase:", w.rebaseOut, w.rebaseErr], script := script }

/-- Lines 217-264: parse the timezone flag; on failure exit 1 reporting the
offending string, otherwise build the script and proceed to the rebase. -/
def runTz (w : World) (ev : List Event) (author email : String) (editDates : Bool)
    (st : Option Int) (stepv : Int) : RunResult :=
  match parse_offset w.argTimezone with
  | none =>
    { exit := 1, reason := .badTimezone, events := ev,
      errLines := ["Error: invalid timezone format '" ++ w.argTimezone ++ "'",
        "Expected format: ±HH:MM (e.g., +05:30, -07:00)"],
      script := [] }
  | some tz =>
    runRebase w ev (buildScript w.commits author email
      (dateFor editDates st stepv w.commits.length tz.1 tz.2))

/-- Lines 186-215: parse the interval, reject a reversed interval, confirm
the degenerate equal-endpoints case when more than one commit exists, and
compute the step. -/
def runDates (w : World) (ev : List Event) (author email : String)
    (editDates : Bool) : RunResult :=
  if editDates then
    match w.isoStart, w.isoEnd with
    | some st, some et =>
      if et < st then
        { exit := 1, reason := .endBeforeStart, events := ev,
          errLines := ["Error: end-time must follow start-time."], script := [] }
      else if et = st ∧ 1 < w.commits.length then
        if yes_answer w.promptDegenerate then
          runTz w (ev ++ [.promptDegenerate]) author email true (some st)
            (step_calc st et w.commits.length)
        else
          { exit := 0, reason := .degenerateDeclined, events := ev ++ [.promptDegenerate],
            errLines :=
              ["Warning: start-time equals end-time. All commits will have the same timestamp."],
            script := [] }
      else
        runTz w ev author email true (some st) (step_calc st et w.commits.length)
    | _, _ =>
      { exit := 1, reason := .badTimestamp, events := ev,
        errLines := ["Bad timestamp"], script := [] }
  else runTz w ev author email false none 0

/-- Lines 154-157: the author name, from the flag, else from git config,
else prompted (stripped and cleaned). -/
def resolveAuthor (w : World) : String :=
  if w.argAuthorName ≠ "" then w.argAuthorName
  else if w.configUserName ≠ "" then w.configUserName
  else clean_input (pyStrip w.promptAuthorName)

/-- Lines 159-162: the author email, resolved the same way. -/
def resolveEmail (w : World) : String :=
  if w.argAuthorEmail ≠ "" then w.argAuthorEmail
  else if w.configUserEmail ≠ "" then w.configUserEmail
  else clean_input (pyStrip w.promptAuthorEmail)

/-- The prompt issued when neither the name flag nor git config supplies
an author name. -/
def resolveAuthorEvents (w : World) (ev : List Event) : List Event :=
  if w.argAuthorName = "" ∧ w.configUserName = "" then ev ++ [.promptAuthorName] else ev

/-- The prompt issued when neither the email flag nor git config supplies
an author email. -/
def resolveEmailEvents (w : World) (ev : List Event) : List Event :=
  if w.argAuthorEmail = "" ∧ w.configUserEmail = "" then ev ++ [.promptAuthorEmail] else ev

/-- Lines 145-184: repository and worktree validation, identity
resolution, `ensure_remote`, and the non-empty-history check. -/
def runMain (w : World) (ev : List Event) (editDates : Bool) : RunResult :=
  if w.repoIsGit then
    if w.statusOk then
      if pyStrip w.statusOut = "" then
        if resolveAuthor w = "" ∨ resolveEmail w = "" then
          { exit := 1, reason := .missingIdentity,
            events := resolveEmailEvents w (resolveAuthorEvents w ev),
            errLines := ["Error: author name and email must be provided."], script := [] }
        else if w.commits.length = 0 then
          { exit := 1, reason := .emptyHistory,
            events := resolveEmailEvents w (resolveAuthorEvents w ev) ++ [.remoteSet],
            errLines := ["No commits to rewrite."], script := [] }
        else
          runDates w (resolveEmailEvents w (resolveAuthorEvents w ev) ++ [.remoteSet])
            (resolveAuthor w) (resolveEmail w) editDates
      else
        { exit := 1, reason := .dirtyWorktree, events := ev,
          errLines :=
            ["Error: working directory has uncommitted changes. Please commit or stash before rewriting history."],
          script := [] }
    else
      { exit := 1, reason := .statusFail, events := ev,
        errLines := ["Error checking git status: " ++ w.statusErr], script := [] }
  else
    { exit := 1, reason := .badRepo, events := ev,
      errLines := ["Error: not a git repo."], script := [] }

/-- Lines 107-110: the remote-URL prompt, issued when the flag is absent. -/
def initialEvents (w : World) : List Event :=
  if w.argRemoteUrl = "" then [.promptRemoteUrl] else []

/-- Lines 104-143: resolve the remote URL (prompting if the flag is
absent), then the three-way start/end-time flag analysis, then hand over
to the validation pipeline. -/
def run (w : World) : RunResult :=
  if w.argStartTime ≠ "" then
    runMain w (initialEvents w) true
  else if w.argEndTime ≠ "" then
    { exit := 1, reason := .endWithoutStart, events := initialEvents w,
      errLines := ["Error: --start-time must be provided if --end-time is specified."],
      script := [] }
  else if yes_answer w.promptEditDates then
    runMain w (initialEvents w ++ [.promptEditDates, .promptStartDate, .promptEndDate]) true
  else
    runMain w (initialEvents w ++ [.promptEditDates]) false

/-- A fully specified baseline world: flags for remote, identity and
force-push given, no date editing requested (the prompt is answered "n"),
a valid clean single-commit repository, and a successful rebase. -/
def wBase : World :=
  { argRemoteUrl := "http://x", argStartTime := "", argEndTime := "",
    argAuthorName := "Ann", argAuthorEmail := "a@x", argForcePush := true,
    argTimezone := "+05:30",
    promptRemoteUrl := "", promptEditDates := "n", promptAuthorName := "",
    promptAuthorEmail := "", promptDegenerate := "", promptPush := "",
    repoIsGit := true, statusOk := true, statusOut := "", statusErr := "",
    configUserName := "", configUserEmail := "",
    commits := ["c1"], isoStart := none, isoEnd := none,
    rebaseOk := true, rebaseOut := "", rebaseErr := "" }

/-- The baseline world with an empty commit history. -/
def wEmptyHistory : World := { wBase with commits := [] }

/-- The baseline world with a dirty worktree and no prompting at all
(start-time flag given so that no date prompt precedes the check). -/
def wDirty : World :=
  { wBase with
    argStartTime := "2025-01-01T00:00:00"
    statusOut := " M file" }

/-- A three-commit world with a degenerate (equal-endpoints) interval and
a declining answer at the confirmation prompt. -/
def wDegenerate : World :=
  { wBase with
    argStartTime := "2025-01-01T00:00:00"
    argEndTime := "2025-01-01T00:00:00"
    isoStart := some 1735689600000000
    isoEnd := some 1735689600000000
    commits := ["a", "b", "c"]
    promptDegenerate := "n" }

/-- The baseline world whose rebase invocation fails with diagnostics. -/
def wRebaseFail : World :=
  { wBase with
    rebaseOk := false
    rebaseOut := "out text"
    rebaseErr := "err text" }

/-- The baseline world with the author name supplied through the
command-line flag, containing the control character 0x01. -/
def wCtrlName : World := { wBase with argAuthorName := "a\x01b" }

/-- The baseline world with the author name neither in flags nor config,
so that it is prompted interactively. -/
def wPromptedName : World :=
  { wBase with
    argAuthorName := ""
    configUserName := ""
    promptAuthorName := " Bob " }

/-- A world given an end time but no start time. -/
def wEndOnly : World := { wBase with argEndTime := "2025-06-30T23:59:59" }

/-- The validation failures that happen before `ensure_remote`. -/
def ValidationTag (r : ExitReason) : Prop :=
  r = .badRepo ∨ r = .dirtyWorktree ∨ r = .missingIdentity

/-- The validation failures that happen after `ensure_remote` but before
any history mutation. -/
def PostRemoteTag (r : ExitReason) : Prop :=
  r = .emptyHistory ∨ r = .badTimestamp ∨ r = .endBeforeStart ∨ r = .badTimezone

/-- Events that may occur before the rebase step: prompts and the remote
update. -/
def PreRebase (ev : List Event) : Prop :=
  ∀ x ∈ ev, x = Event.remoteSet ∨ isMutation x = false

instance (ev : List Event) : Decidable (PreRebase ev) :=
  inferInstanceAs (Decidable (∀ x ∈ ev, x = Event.remoteSet ∨ isMutation x = false))

/-- What C4 requires of a finished run: the transient script artifact was
removed, and if the rebase failed then the run exited 1 surfacing the
captured diagnostics and attempted none of reflog expiry, gc, or push. -/
def C4Post (w : World) (r : RunResult) : Prop :=
  Event.scriptRemove ∈ r.events ∧
  (w.rebaseOk = false →
    r.exit = 1 ∧ r.reason = ExitReason.rebaseFailed ∧
    w.rebaseOut ∈ r.errLines ∧ w.rebaseErr ∈ r.errLines ∧
    Event.reflogExpire ∉ r.events ∧ Event.gcRun ∉ r.events ∧
    Event.pushRun ∉ r.events)

/-- What C6 requires of a declined degenerate confirmation: exit code 0,
the confirmation prompt was issued, no history mutation was or will be
performed — but the remote URL has already been set. -/
def C6Decline (r : RunResult) : Prop :=
  r.reason = ExitReason.degenerateDeclined →
    r.exit = 0 ∧ Event.promptDegenerate ∈ r.events ∧ Event.remoteSet ∈ r.events ∧
    Event.rebaseRun ∉ r.events ∧ Event.reflogExpire ∉ r.events ∧
    Event.gcRun ∉ r.events ∧ Event.pushRun ∉ r.events

/-- What C8 (amended) requires of a dirty-worktree exit: exit code 1, the
error message reported, no mutation performed, and no confirmation or
identity prompt ever issued. -/
def C8Post (r : RunResult) : Prop :=
  r.reason = ExitReason.dirtyWorktree →
    r.exit = 1 ∧
    "Error: working directory has uncommitted changes. Please commit or stash before rewriting history."
      ∈ r.errLines ∧
    r.events.filter isMutation = [] ∧
    Event.promptDegenerate ∉ r.events ∧ Event.promptPush ∉ r.events ∧
    Event.promptAuthorName ∉ r.events ∧ Event.promptAuthorEmail ∉ r.events

/-- Whether a string contains a control character (below U+0020, or the
delete character U+007F). -/
def hasCtrlChar (s : String) : Bool :=
  s.data.any (fun c => c.toNat < 32 || c.toNat == 127)

/-- Whether a script line is an `exec` whose committer name contains a
control character. -/
def execNameHasCtrl : ScriptLine → Bool
  | .exec cn _ _ _ => hasCtrlChar cn
  | .pick _ => false

/-- What C9 (amended) requires of the generated script: every rewrite
instruction carries a non-empty committer name and email, and when the
name came neither from the flag nor from git config, it is exactly the
escaped, cleaned, stripped interactive input. -/
def C9Exec (w : World) (r : RunResult) : Prop :=
  ∀ cn ce d a, ScriptLine.exec cn ce d a ∈ r.script →
    cn ≠ "" ∧ ce ≠ "" ∧
    (w.argAuthorName = "" → w.configUserName = "" →
      cn = escape_shell_single_quote (clean_input (pyStrip w.promptAuthorName)))

lemma divide_and_round_nonneg (a b : Int) (ha : 0 ≤ a) (hb : 0 < b) :
    0 ≤ divide_and_round a b := by
  unfold divide_and_round
  have hq : 0 ≤ a / b := Int.ediv_nonneg ha hb.le
  dsimp only
  split <;> omega

lemma divide_and_round_exact (a b : Int) (hb : 0 < b) (h : b ∣ a) :
    b * divide_and_round a b = a := by
  unfold divide_and_round
  have h1 : b * (a / b) + a % b = a := Int.ediv_add_emod a b
  have h2 : a % b = 0 := Int.emod_eq_zero_of_dvd h
  dsimp only
  split
  · omega
  · omega

lemma step_calc_nonneg (st et : Int) (n : Nat) (h : st ≤ et) :
    0 ≤ step_calc st et n := by
  unfold step_calc
  split
  · exact divide_and_round_nonneg _ _ (by omega) (by omega)
  · omega

lemma distribute_length (n : Nat) (st et : Int) :
    (distribute n st et).length = n := by
  simp [distribute]

lemma distribute_head (n : Nat) (st et : Int) (h : 1 ≤ n) :
    (distribute n st et).head? = some st := by
  obtain ⟨m, rfl⟩ : ∃ m, n = m + 1 := ⟨n - 1, by omega⟩
  rw [distribute, List.range_succ_eq_map]
  simp [nth_ts]

lemma distribute_getLast (n : Nat) (st et : Int) (h : 1 ≤ n) :
    (distribute n st et).getLast? =
      some (nth_ts st (step_calc st et n) n (n - 1)) := by
  obtain ⟨m, rfl⟩ : ∃ m, n = m + 1 := ⟨n - 1, by omega⟩
  rw [distribute, List.range_succ, List.map_append]
  simp

lemma distribute_sorted (n : Nat) (st et : Int) (h : st ≤ et) :
    List.Sorted (· ≤ ·) (distribute n st et) := by
  have hstep := step_calc_nonneg st et n h
  refine List.Pairwise.map _ ?_ (List.pairwise_lt_range n)
  intro a b hab
  unfold nth_ts
  split
  · have : (a : Int) ≤ (b : Int) := by exact_mod_cast hab.le
    nlinarith
  · exact le_refl _

/-- C1: for `n ≥ 1` and `start ≤ end` the computed timestamp sequence has
length `n`, is non-decreasing and starts at `start`; when `n > 1` its last
element equals `end` exactly whenever `n - 1` divides `end - start` in
microseconds (the `timedelta / int` division rounds to whole microseconds,
so without that divisibility the last element is `start + round((end-start)/(n-1))·(n-1)`,
which can differ from `end`). -/
theorem distribute_spec_amended (n : Nat) (st et : Int) (h1 : 1 ≤ n) (h2 : st ≤ et) :
    (distribute n st et).length = n ∧
    List.Sorted (· ≤ ·) (distribute n st et) ∧
    (distribute n st et).head? = some st ∧
    (1 < n → ((n : Int) - 1) ∣ (et - st) →
      (distribute n st et).getLast? = some et) := by
  refine ⟨distribute_length n st et, distribute_sorted n st et h2,
    distribute_head n st et h1, ?_⟩
  intro hn hdvd
  rw [distribute_getLast n st et h1]
  have hb : (0 : Int) < (n : Int) - 1 := by
    have : (1 : Int) < (n : Int) := by exact_mod_cast hn
    omega
  have hx := divide_and_round_exact (et - st) ((n : Int) - 1) hb hdvd
  unfold nth_ts step_calc
  have hcast : (((n - 1 : Nat)) : Int) = (n : Int) - 1 := by
    have : (1 : Nat) ≤ n := h1
    push_cast [this]
    ring
  simp only [if_pos hn, if_pos hn, hcast]
  congr 1
  nlinarith [hx]

/-- C1 counterexample: with `n = 3`, `start = 0`, `end = 1` (one microsecond),
the step rounds to `0`, so the last produced timestamp is `0`, not `end`:
the claim that the last element always equals `end` exactly is false. -/
theorem distribute_last_not_exact :
    1 ≤ 3 ∧ (0 : Int) ≤ 1 ∧ (distribute 3 0 1).getLast? = some 0 ∧ (0 : Int) ≠ 1 := by
  refine ⟨by decide, by decide, ?_, by decide⟩
  decide

/-- C1 witness: a concrete instance of the amended theorem with `n = 3`,
`start = 0`, `end = 4` (divisible case, last element hits `end`). -/
theorem distribute_spec_amended_witness :
    (distribute 3 0 4).length = 3 ∧
    List.Sorted (· ≤ ·) (distribute 3 0 4) ∧
    (distribute 3 0 4).head? = some 0 ∧
    (distribute 3 0 4).getLast? = some 4 := by
  have h := distribute_spec_amended 3 0 4 (by decide) (by decide)
  exact ⟨h.1, h.2.1, h.2.2.1, h.2.2.2 (by decide) (by decide)⟩

lemma dropWhile_head_false {α : Type} (p : α → Bool) (l : List α) (c : α) (t : List α)
    (h : l.dropWhile p = c :: t) : p c = false := by
  induction l with
  | nil => simp [List.dropWhile] at h
  | cons x xs ih =>
    rw [List.dropWhile] at h
    cases hpx : p x with
    | false =>
      simp only [hpx] at h
      cases h
      exact hpx
    | true =>
      simp only [hpx] at h
      exact ih h

lemma takeWhile_of_append {α : Type} (p : α → Bool) (a : List α) (c : α) (b : List α)
    (ha : ∀ x ∈ a, p x = true) (hc : p c = false) :
    (a ++ c :: b).takeWhile p = a ∧ (a ++ c :: b).dropWhile p = c :: b := by
  induction a with
  | nil =>
    simp [List.takeWhile, List.dropWhile, hc]
  | cons x xs ih =>
    have hx : p x = true := ha x (by simp)
    have := ih (fun y hy => ha y (by simp [hy]))
    simp [List.takeWhile, List.dropWhile, hx, this.1, this.2]

/-- C5 (amended): `parse_offset` accepts exactly the strings of form
sign ++ hh ++ colon ++ mm where hh and mm are colon-free, are accepted by
Python `int()`, and have values in [0,14] and [0,59].  This language is
strictly larger than the spec grammar even with lenient zero-padding:
`int()` also tolerates inner signs and surrounding whitespace. -/
theorem parse_offset_amended (s : String) :
    (parse_offset s).isSome = true ↔ PyTzGrammar s := by
  obtain ⟨l⟩ := s
  show (parse_offset ⟨l⟩).isSome = true ↔ _
  unfold parse_offset PyTzGrammar
  constructor
  · intro hp
    cases l with
    | nil => simp at hp
    | cons sg rest =>
      dsimp only at hp
      by_cases hsg : sg = '+' ∨ sg = '-'
      · rw [if_pos hsg] at hp
        cases hdrop : rest.dropWhile (fun c => c ≠ ':') with
        | nil => rw [hdrop] at hp; simp at hp
        | cons c mm =>
          rw [hdrop] at hp
          dsimp only at hp
          have hc : c = ':' := by
            have := dropWhile_head_false _ rest c mm hdrop
            simpa using this
          have hsplit : rest.takeWhile (fun c => c ≠ ':') ++ c :: mm = rest := by
            rw [← hdrop]; exact List.takeWhile_append_dropWhile _ _
          by_cases hcont : mm.contains ':'
          · rw [if_pos hcont] at hp; simp at hp
          · rw [if_neg hcont] at hp
            cases hh_int : pyInt (rest.takeWhile (fun c => c ≠ ':')) with
            | none => rw [hh_int] at hp; simp at hp
            | some h =>
              cases mm_int : pyInt mm with
              | none => rw [hh_int, mm_int] at hp; simp at hp
              | some m =>
                rw [hh_int, mm_int] at hp
                dsimp only at hp
                by_cases hrange : h < 0 ∨ h > 14 ∨ m < 0 ∨ m > 59
                · rw [if_pos hrange] at hp; simp at hp
                · refine ⟨sg, rest.takeWhile (fun c => c ≠ ':'), mm, h, m, ?_, hsg, ?_, ?_,
                    hh_int, mm_int, by omega, by omega, by omega, by omega⟩
                  · subst hc
                    show sg :: rest = _
                    exact congrArg (fun t => sg :: t) hsplit.symm
                  · intro hmem
                    have := List.mem_takeWhile_imp hmem
                    simp at this
                  · intro hmem
                    exact hcont (List.elem_iff.mpr hmem)
      · rw [if_neg hsg] at hp; simp at hp
  · rintro ⟨sg, hh, mm, h, m, hdata, hsg, hhh, hmm, hh_int, mm_int, h0, h14, m0, m59⟩
    have hdata' : l = sg :: (hh ++ ':' :: mm) := hdata
    subst hdata'
    dsimp only
    rw [if_pos hsg]
    have hmemhh : ∀ x ∈ hh, (fun c => decide (c ≠ ':')) x = true := by
      intro x hx
      simp only [decide_eq_true_eq]
      intro hex
      subst hex
      exact hhh hx
    have hsplit := takeWhile_of_append (fun c => decide (c ≠ ':')) hh ':' mm hmemhh (by simp)
    rw [hsplit.2]
    dsimp only
    rw [if_neg (fun hcon => hmm (List.elem_iff.mp hcon))]
    rw [hsplit.1, hh_int, mm_int]
    dsimp only
    rw [if_neg (by omega)]
    simp

/-- C5 counterexample: the string following neither the strict spec grammar
nor its padding-lenient variant is still accepted by the parser, because
Python `int()` tolerates an inner sign in the minutes field. -/
theorem parse_offset_over_accepts :
    (parse_offset "+05:+30").isSome = true ∧
    spec_grammar "+05:+30" = false ∧
    spec_grammar_lenient "+05:+30" = false := by
  refine ⟨?_, ?_, ?_⟩ <;> decide

/-- C5 witness: the amended characterization applied at the concrete
accepted string. -/
theorem parse_offset_amended_witness : PyTzGrammar "+05:30" :=
  (parse_offset_amended "+05:30").mp (by decide)

/-- C3 counterexample: at Scenario D's input the code produces the string
`2025-01-01 05:30:00 +0530` — the wall-clock field is shifted by the
offset and the offset is also appended — which is not the claimed
rendering `2025-01-01 00:00:00 +0530` (nor does it denote that instant). -/
theorem timezone_scenario_d_counterexample :
    parse_offset "+05:30" = some (330, "+0530") ∧
    formatGitDate (applyTz (microOfCivil 2025 1 1 0 0 0) 330) "+0530" =
      "2025-01-01 05:30:00 +0530" ∧
    formatGitDate (applyTz (microOfCivil 2025 1 1 0 0 0) 330) "+0530" ≠
      "2025-01-01 00:00:00 +0530" := by
  refine ⟨by decide, by decide, by decide⟩

/-- C3 (amended): applying the offset `+05:30` to the naive timestamp
2025-01-01T00:00:00 produces the formatted committed date
`2025-01-01 05:30:00 +0530`: the signed offset is arithmetically added to
the naive timestamp and the result is formatted with zero-padded
fixed-width components and an explicit sign on the offset suffix. -/
theorem timezone_apply_amended :
    parse_offset "+05:30" = some (330, "+0530") ∧
    formatGitDate (applyTz (microOfCivil 2025 1 1 0 0 0) 330) "+0530" =
      "2025-01-01 05:30:00 +0530" ∧
    (∀ t m : Int, applyTz t m - t = m * 60000000) := by
  refine ⟨by decide, by decide, fun t m => by unfold applyTz; ring⟩

lemma buildScriptAux_picks (ea ee : String) (df : Nat → Option String) :
    ∀ (i : Nat) (cs : List String),
      (buildScriptAux ea ee df i cs).filterMap pickTarget = cs := by
  intro i cs
  induction cs generalizing i with
  | nil => simp [buildScriptAux]
  | cons c cs ih => simp [buildScriptAux, List.filterMap, pickTarget, ih]

lemma buildScriptAux_execCount (ea ee : String) (df : Nat → Option String) :
    ∀ (i : Nat) (cs : List String),
      ((buildScriptAux ea ee df i cs).filter isExecLine).length = cs.length := by
  intro i cs
  induction cs generalizing i with
  | nil => simp [buildScriptAux]
  | cons c cs ih => simp [buildScriptAux, List.filter, isExecLine, ih]

lemma buildScriptAux_execMem (ea ee : String) (df : Nat → Option String) :
    ∀ (i : Nat) (cs : List String) (cn ce : String) (d : Option String) (a : String),
      ScriptLine.exec cn ce d a ∈ buildScriptAux ea ee df i cs →
      cn = ea ∧ ce = ee ∧ a = ea ++ " <" ++ ee ++ ">" := by
  intro i cs
  induction cs generalizing i with
  | nil => intro cn ce d a h; simp [buildScriptAux] at h
  | cons c cs ih =>
    intro cn ce d a h
    simp only [buildScriptAux, List.mem_cons] at h
    rcases h with h | h | h
    · exact absurd h (by simp)
    · obtain ⟨h1, h2, _, h4⟩ := ScriptLine.exec.injEq .. ▸ h
      exact ⟨h1, h2, h4⟩
    · exact ih (i + 1) cn ce d a h

/-- C7: for every non-empty commit list the generated script contains
exactly one rewrite instruction per original commit — the `pick` targets,
in order, are exactly the original commits, and the number of `exec`
instructions equals the number of commits — and every rewrite instruction
carries the same single identity in the committer environment and in the
`--author` argument. -/
theorem build_plan_invariants (commits : List String) (author email : String)
    (df : Nat → Option String) (_h : commits ≠ []) :
    (buildScript commits author email df).filterMap pickTarget = commits ∧
    ((buildScript commits author email df).filter isExecLine).length = commits.length ∧
    (∀ cn ce d a, ScriptLine.exec cn ce d a ∈ buildScript commits author email df →
      cn = escape_shell_single_quote author ∧ ce = escape_shell_single_quote email ∧
      a = cn ++ " <" ++ ce ++ ">") := by
  refine ⟨buildScriptAux_picks _ _ _ 0 commits, buildScriptAux_execCount _ _ _ 0 commits, ?_⟩
  intro cn ce d a hmem
  obtain ⟨h1, h2, h3⟩ := buildScriptAux_execMem _ _ _ 0 commits cn ce d a hmem
  exact ⟨h1, h2, by rw [h1, h2]; exact h3⟩

lemma runRebase_reason (w : World) (ev : List Event) (s : List ScriptLine) :
    (runRebase w ev s).reason = .rebaseFailed ∨ (runRebase w ev s).reason = .success := by
  unfold runRebase
  dsimp only
  split
  · split
    · right; rfl
    · split
      · right; rfl
      · right; rfl
  · left; rfl

lemma runTz_reason (w : World) (ev : List Event) (a e : String) (ed : Bool)
    (st : Option Int) (sp : Int) :
    (runTz w ev a e ed st sp).reason = .badTimezone ∨
    (runTz w ev a e ed st sp).reason = .rebaseFailed ∨
    (runTz w ev a e ed st sp).reason = .success := by
  unfold runTz
  split
  · left; rfl
  · right; exact runRebase_reason _ _ _

lemma runDates_reason (w : World) (ev : List Event) (a e : String) (ed : Bool) :
    (runDates w ev a e ed).reason = .endBeforeStart ∨
    (runDates w ev a e ed).reason = .degenerateDeclined ∨
    (runDates w ev a e ed).reason = .badTimestamp ∨
    (runDates w ev a e ed).reason = .badTimezone ∨
    (runDates w ev a e ed).reason = .rebaseFailed ∨
    (runDates w ev a e ed).reason = .success := by
  unfold runDates
  split
  · split
    · split
      · left; rfl
      · split
        · split
          · rename_i st et heq1 heq2 hlt hdeg hyes
            rcases runTz_reason w (ev ++ [.promptDegenerate]) a e true (some st)
              (step_calc st et w.commits.length) with h | h | h <;> simp [h]
          · right; left; rfl
        · rename_i st et heq1 heq2 hlt hdeg
          rcases runTz_reason w ev a e true (some st)
            (step_calc st et w.commits.length) with h | h | h <;> simp [h]
    · right; right; left; rfl
  · rcases runTz_reason w ev a e false none 0 with h | h | h <;> simp [h]

lemma initialEvents_filter (w : World) : (initialEvents w).filter isMutation = [] := by
  unfold initialEvents
  split <;> rfl

lemma resolveAuthorEvents_filter (w : World) (ev : List Event) :
    (resolveAuthorEvents w ev).filter isMutation = ev.filter isMutation := by
  unfold resolveAuthorEvents
  split
  · rw [List.filter_append]
    simp [isMutation]
  · rfl

lemma resolveEmailEvents_filter (w : World) (ev : List Event) :
    (resolveEmailEvents w ev).filter isMutation = ev.filter isMutation := by
  unfold resolveEmailEvents
  split
  · rw [List.filter_append]
    simp [isMutation]
  · rfl

lemma runRebase_c2 (w : World) (ev : List Event) (s : List ScriptLine) :
    (ValidationTag (runRebase w ev s).reason →
      ((runRebase w ev s).events.filter isMutation = [])) ∧
    (PostRemoteTag (runRebase w ev s).reason →
      (runRebase w ev s).exit = 1 ∧
      (runRebase w ev s).events.filter isMutation = [Event.remoteSet]) := by
  rcases runRebase_reason w ev s with h | h <;>
    exact ⟨fun hc => absurd hc (by simp [ValidationTag, h]),
      fun hc => absurd hc (by simp [PostRemoteTag, h])⟩

lemma runTz_c2 (w : World) (ev : List Event) (a e : String) (ed : Bool)
    (st : Option Int) (sp : Int) (hev : ev.filter isMutation = [Event.remoteSet]) :
    (ValidationTag (runTz w ev a e ed st sp).reason →
      ((runTz w ev a e ed st sp).events.filter isMutation = [])) ∧
    (PostRemoteTag (runTz w ev a e ed st sp).reason →
      (runTz w ev a e ed st sp).exit = 1 ∧
      (runTz w ev a e ed st sp).events.filter isMutation = [Event.remoteSet]) := by
  unfold runTz
  split
  · exact ⟨fun hc => absurd hc (by simp [ValidationTag]), fun _ => ⟨rfl, hev⟩⟩
  · exact runRebase_c2 w ev _

lemma runDates_c2 (w : World) (ev : List Event) (a e : String) (ed : Bool)
    (hev : ev.filter isMutation = [Event.remoteSet]) :
    (ValidationTag (runDates w ev a e ed).reason →
      ((runDates w ev a e ed).events.filter isMutation = [])) ∧
    (PostRemoteTag (runDates w ev a e ed).reason →
      (runDates w ev a e ed).exit = 1 ∧
      (runDates w ev a e ed).events.filter isMutation = [Event.remoteSet]) := by
  have hev' : (ev ++ [Event.promptDegenerate]).filter isMutation = [Event.remoteSet] := by
    rw [List.filter_append, hev]
    rfl
  unfold runDates
  split
  · split
    · split
      · exact ⟨fun hc => absurd hc (by simp [ValidationTag]), fun _ => ⟨rfl, hev⟩⟩
      · split
        · split
          · exact runTz_c2 w _ a e true _ _ hev'
          · exact ⟨fun hc => absurd hc (by simp [ValidationTag]),
              fun hc => absurd hc (by simp [PostRemoteTag])⟩
        · exact runTz_c2 w ev a e true _ _ hev
    · exact ⟨fun hc => absurd hc (by simp [ValidationTag]), fun _ => ⟨rfl, hev⟩⟩
  · exact runTz_c2 w ev a e false _ _ hev

lemma runMain_c2 (w : World) (ev : List Event) (ed : Bool)
    (hev : ev.filter isMutation = []) :
    (ValidationTag (runMain w ev ed).reason →
      ((runMain w ev ed).events.filter isMutation = [])) ∧
    (PostRemoteTag (runMain w ev ed).reason →
      (runMain w ev ed).exit = 1 ∧
      (runMain w ev ed).events.filter isMutation = [Event.remoteSet]) := by
  have hid : (resolveEmailEvents w (resolveAuthorEvents w ev)).filter isMutation = [] := by
    rw [resolveEmailEvents_filter, resolveAuthorEvents_filter, hev]
  have hev3 : ((resolveEmailEvents w (resolveAuthorEvents w ev)) ++
      [Event.remoteSet]).filter isMutation = [Event.remoteSet] := by
    rw [List.filter_append, hid]
    rfl
  unfold runMain
  split
  · split
    · split
      · split
        · exact ⟨fun _ => hid, fun hc => absurd hc (by simp [PostRemoteTag])⟩
        · split
          · exact ⟨fun hc => absurd hc (by simp [ValidationTag]), fun _ => ⟨rfl, hev3⟩⟩
          · exact runDates_c2 w _ _ _ ed hev3
      · exact ⟨fun _ => hev, fun hc => absurd hc (by simp [PostRemoteTag])⟩
    · exact ⟨fun hc => absurd hc (by simp [ValidationTag]),
        fun hc => absurd hc (by simp [PostRemoteTag])⟩
  · exact ⟨fun _ => hev, fun hc => absurd hc (by simp [PostRemoteTag])⟩

/-- C2 (amended): the bad-repo-path, dirty-worktree, and missing-identity
validations abort before anything is touched, but the empty-history,
malformed-timestamp, end-before-start, and malformed-timezone validations
run only after `ensure_remote` has already created or updated the remote
origin URL: on those exits the run still exits non-zero and has performed
no history mutation, but exactly the remote mutation has happened. -/
theorem validation_before_mutation_amended (w : World) :
    (ValidationTag (run w).reason →
      ((run w).events.filter isMutation = [])) ∧
    (PostRemoteTag (run w).reason →
      (run w).exit = 1 ∧
      (run w).events.filter isMutation = [Event.remoteSet]) := by
  unfold run
  split
  · exact runMain_c2 w _ true (initialEvents_filter w)
  · split
    · exact ⟨fun hc => absurd hc (by simp [ValidationTag]),
        fun hc => absurd hc (by simp [PostRemoteTag])⟩
    · split
      · refine runMain_c2 w _ true ?_
        rw [List.filter_append, initialEvents_filter]
        rfl
      · refine runMain_c2 w _ false ?_
        rw [List.filter_append, initialEvents_filter]
        rfl

lemma preRebase_append (ev l : List Event) (h1 : PreRebase ev) (h2 : PreRebase l) :
    PreRebase (ev ++ l) := by
  intro x hx
  rcases List.mem_append.mp hx with h | h
  · exact h1 x h
  · exact h2 x h

lemma preRebase_initial (w : World) : PreRebase (initialEvents w) := by
  unfold initialEvents
  split <;> decide

lemma preRebase_resolveAuthor (w : World) (ev : List Event) (h : PreRebase ev) :
    PreRebase (resolveAuthorEvents w ev) := by
  unfold resolveAuthorEvents
  split
  · exact preRebase_append _ _ h (by decide)
  · exact h

lemma preRebase_resolveEmail (w : World) (ev : List Event) (h : PreRebase ev) :
    PreRebase (resolveEmailEvents w ev) := by
  unfold resolveEmailEvents
  split
  · exact preRebase_append _ _ h (by decide)
  · exact h

lemma preRebase_not_mem (ev : List Event) (h : PreRebase ev) (x : Event)
    (hx1 : x ≠ Event.remoteSet) (hx2 : isMutation x = true) : x ∉ ev := by
  intro hm
  rcases h x hm with h1 | h1
  · exact hx1 h1
  · rw [h1] at hx2
    cases hx2

lemma runRebase_c4 (w : World) (ev : List Event) (s : List ScriptLine)
    (hev : PreRebase ev) : C4Post w (runRebase w ev s) := by
  unfold runRebase C4Post
  split
  · rename_i hok
    constructor
    · split
      · simp
      · split <;> simp
    · intro hf
      rw [hok] at hf
      cases hf
  · constructor
    · simp
    · intro _
      refine ⟨rfl, rfl, by simp, by simp, ?_, ?_, ?_⟩ <;>
        · intro hm
          rcases List.mem_append.mp hm with h | h
          · revert h
            exact preRebase_not_mem ev hev _ (by decide) (by decide)
          · simp at h

lemma runTz_c4 (w : World) (ev : List Event) (a e : String) (ed : Bool)
    (st : Option Int) (sp : Int) (hev : PreRebase ev) :
    Event.rebaseRun ∈ (runTz w ev a e ed st sp).events →
    C4Post w (runTz w ev a e ed st sp) := by
  unfold runTz
  split
  · intro h
    exact absurd h (preRebase_not_mem ev hev _ (by decide) (by decide))
  · intro _
    exact runRebase_c4 w ev _ hev

lemma runDates_c4 (w : World) (ev : List Event) (a e : String) (ed : Bool)
    (hev : PreRebase ev) :
    Event.rebaseRun ∈ (runDates w ev a e ed).events →
    C4Post w (runDates w ev a e ed) := by
  have hev' : PreRebase (ev ++ [Event.promptDegenerate]) :=
    preRebase_append _ _ hev (by decide)
  unfold runDates
  split
  · split
    · split
      · intro h
        exact absurd h (preRebase_not_mem ev hev _ (by decide) (by decide))
      · split
        · split
          · exact runTz_c4 w _ a e true _ _ hev'
          · intro h
            exact absurd h (preRebase_not_mem _ hev' _ (by decide) (by decide))
        · exact runTz_c4 w ev a e true _ _ hev
    · intro h
      exact absurd h (preRebase_not_mem ev hev _ (by decide) (by decide))
  · exact runTz_c4 w ev a e false none 0 hev

lemma runMain_c4 (w : World) (ev : List Event) (ed : Bool) (hev : PreRebase ev) :
    Event.rebaseRun ∈ (runMain w ev ed).events →
    C4Post w (runMain w ev ed) := by
  have hev3 : PreRebase (resolveEmailEvents w (resolveAuthorEvents w ev) ++
      [Event.remoteSet]) :=
    preRebase_append _ _ (preRebase_resolveEmail w _ (preRebase_resolveAuthor w _ hev))
      (by decide)
  unfold runMain
  split
  · split
    · split
      · split
        · intro h
          exact absurd h (preRebase_not_mem _
            (preRebase_resolveEmail w _ (preRebase_resolveAuthor w _ hev)) _
            (by decide) (by decide))
        · split
          · intro h
            exact absurd h (preRebase_not_mem _ hev3 _ (by decide) (by decide))
          · exact runDates_c4 w _ _ _ ed hev3
      · intro h
        exact absurd h (preRebase_not_mem ev hev _ (by decide) (by decide))
    · intro h
      exact absurd h (preRebase_not_mem ev hev _ (by decide) (by decide))
  · intro h
    exact absurd h (preRebase_not_mem ev hev _ (by decide) (by decide))

/-- C4: whenever the run reaches the rebase invocation, the transient
sequence-editor script is removed afterwards whether the rebase succeeded
or failed; and if the rebase exited non-zero, the run exits with code 1,
surfaces the captured stdout and stderr verbatim among its error output,
and attempts neither the reflog expiry, nor garbage collection, nor any
push. -/
theorem rebase_failure_handling (w : World) :
    Event.rebaseRun ∈ (run w).events →
    Event.scriptRemove ∈ (run w).events ∧
    (w.rebaseOk = false →
      (run w).exit = 1 ∧ (run w).reason = ExitReason.rebaseFailed ∧
      w.rebaseOut ∈ (run w).errLines ∧ w.rebaseErr ∈ (run w).errLines ∧
      Event.reflogExpire ∉ (run w).events ∧ Event.gcRun ∉ (run w).events ∧
      Event.pushRun ∉ (run w).events) := by
  unfold run
  split
  · exact runMain_c4 w _ true (preRebase_initial w)
  · split
    · intro h
      simp only at h
      exact absurd h (preRebase_not_mem _ (preRebase_initial w) _ (by decide) (by decide))
    · split
      · exact runMain_c4 w _ true
          (preRebase_append _ _ (preRebase_initial w) (by decide))
      · exact runMain_c4 w _ false
          (preRebase_append _ _ (preRebase_initial w) (by decide))

/-- C4 witness: the failing-rebase world reaches the rebase, removes the
script, exits 1 with the diagnostics surfaced, and attempts no cleanup or
push. -/
theorem rebase_failure_handling_witness :
    Event.scriptRemove ∈ (run wRebaseFail).events ∧
    (run wRebaseFail).exit = 1 ∧
    "out text" ∈ (run wRebaseFail).errLines ∧
    "err text" ∈ (run wRebaseFail).errLines ∧
    Event.gcRun ∉ (run wRebaseFail).events := by
  have h := rebase_failure_handling wRebaseFail (by decide)
  have h2 := h.2 (by decide)
  exact ⟨h.1, h2.1, h2.2.2.1, h2.2.2.2.1, h2.2.2.2.2.2.1⟩

lemma not_mem_append_ev (x : Event) (ev l : List Event) (h1 : x ∉ ev) (h2 : x ∉ l) :
    x ∉ ev ++ l := by
  intro hm
  rcases List.mem_append.mp hm with h | h
  · exact h1 h
  · exact h2 h

lemma runRebase_c6a (w : World) (ev : List Event) (s : List ScriptLine) :
    C6Decline (runRebase w ev s) := by
  intro hc
  rcases runRebase_reason w ev s with h | h <;> rw [h] at hc <;> cases hc

lemma runTz_c6a (w : World) (ev : List Event) (a e : String) (ed : Bool)
    (st : Option Int) (sp : Int) : C6Decline (runTz w ev a e ed st sp) := by
  intro hc
  rcases runTz_reason w ev a e ed st sp with h | h | h <;> rw [h] at hc <;> cases hc

lemma runDates_c6a (w : World) (ev : List Event) (a e : String) (ed : Bool)
    (hev : PreRebase ev) (hrs : Event.remoteSet ∈ ev) :
    C6Decline (runDates w ev a e ed) := by
  unfold runDates
  split
  · split
    · split
      · intro hc
        simp at hc
      · split
        · split
          · exact runTz_c6a w _ a e true _ _
          · intro _
            refine ⟨rfl, ?_, ?_, ?_, ?_, ?_, ?_⟩
            · exact List.mem_append_right _ (by simp)
            · exact List.mem_append_left _ hrs
            · exact not_mem_append_ev _ _ _
                (preRebase_not_mem ev hev _ (by decide) (by decide)) (by decide)
            · exact not_mem_append_ev _ _ _
                (preRebase_not_mem ev hev _ (by decide) (by decide)) (by decide)
            · exact not_mem_append_ev _ _ _
                (preRebase_not_mem ev hev _ (by decide) (by decide)) (by decide)
            · exact not_mem_append_ev _ _ _
                (preRebase_not_mem ev hev _ (by decide) (by decide)) (by decide)
        · exact runTz_c6a w ev a e true _ _
    · intro hc
      simp at hc
  · exact runTz_c6a w ev a e false none 0

lemma runMain_c6a (w : World) (ev : List Event) (ed : Bool) (hev : PreRebase ev) :
    C6Decline (runMain w ev ed) := by
  have hev3 : PreRebase (resolveEmailEvents w (resolveAuthorEvents w ev) ++
      [Event.remoteSet]) :=
    preRebase_append _ _ (preRebase_resolveEmail w _ (preRebase_resolveAuthor w _ hev))
      (by decide)
  unfold runMain
  split
  · split
    · split
      · split
        · intro hc
          simp at hc
        · split
          · intro hc
            simp at hc
          · exact runDates_c6a w _ _ _ ed hev3 (List.mem_append_right _ (by simp))
      · intro hc
        simp at hc
    · intro hc
      simp at hc
  · intro hc
    simp at hc

lemma runRebase_noDegen (w : World) (ev : List Event) (s : List ScriptLine)
    (hnd : Event.promptDegenerate ∉ ev) :
    Event.promptDegenerate ∉ (runRebase w ev s).events := by
  unfold runRebase
  split
  · split
    · simp [hnd]
    · split <;> simp [hnd]
  · simp [hnd]

lemma runTz_noDegen (w : World) (ev : List Event) (a e : String) (ed : Bool)
    (st : Option Int) (sp : Int) (hnd : Event.promptDegenerate ∉ ev) :
    Event.promptDegenerate ∉ (runTz w ev a e ed st sp).events := by
  unfold runTz
  split
  · simpa using hnd
  · exact runRebase_noDegen w ev _ hnd

lemma runDates_noDegen (w : World) (ev : List Event) (a e : String) (ed : Bool)
    (hn : w.commits.length ≤ 1) (hnd : Event.promptDegenerate ∉ ev) :
    Event.promptDegenerate ∉ (runDates w ev a e ed).events := by
  unfold runDates
  split
  · split
    · split
      · simpa using hnd
      · split
        · rename_i hdeg
          exact absurd hdeg.2 (by omega)
        · exact runTz_noDegen w ev a e true _ _ hnd
    · simpa using hnd
  · exact runTz_noDegen w ev a e false none 0 hnd

lemma resolveAuthorEvents_noDegen (w : World) (ev : List Event)
    (hnd : Event.promptDegenerate ∉ ev) :
    Event.promptDegenerate ∉ resolveAuthorEvents w ev := by
  unfold resolveAuthorEvents
  split
  · simp [hnd]
  · exact hnd

lemma resolveEmailEvents_noDegen (w : World) (ev : List Event)
    (hnd : Event.promptDegenerate ∉ ev) :
    Event.promptDegenerate ∉ resolveEmailEvents w ev := by
  unfold resolveEmailEvents
  split
  · simp [hnd]
  · exact hnd

lemma runMain_noDegen (w : World) (ev : List Event) (ed : Bool)
    (hn : w.commits.length ≤ 1) (hnd : Event.promptDegenerate ∉ ev) :
    Event.promptDegenerate ∉ (runMain w ev ed).events := by
  have h3 : Event.promptDegenerate ∉
      resolveEmailEvents w (resolveAuthorEvents w ev) ++ [Event.remoteSet] :=
    not_mem_append_ev _ _ _
      (resolveEmailEvents_noDegen w _ (resolveAuthorEvents_noDegen w ev hnd)) (by decide)
  unfold runMain
  split
  · split
    · split
      · split
        · simpa using resolveEmailEvents_noDegen w _
            (resolveAuthorEvents_noDegen w ev hnd)
        · split
          · simpa using h3
          · exact runDates_noDegen w _ _ _ ed hn h3
      · simpa using hnd
    · simpa using hnd
  · simpa using hnd

lemma runRebase_mem_ev (w : World) (ev : List Event) (s : List ScriptLine)
    (x : Event) (hx : x ∈ ev) : x ∈ (runRebase w ev s).events := by
  unfold runRebase
  split
  · split
    · simp [hx]
    · split <;> simp [hx]
  · simp [hx]

lemma runTz_mem_ev (w : World) (ev : List Event) (a e : String) (ed : Bool)
    (st : Option Int) (sp : Int) (x : Event) (hx : x ∈ ev) :
    x ∈ (runTz w ev a e ed st sp).events := by
  unfold runTz
  split
  · simpa using hx
  · exact runRebase_mem_ev w ev _ x hx

lemma runDates_c6c (w : World) (ev : List Event) (a e : String)
    (hev : PreRebase ev) :
    Event.rebaseRun ∈ (runDates w ev a e true).events →
    w.isoStart = w.isoEnd → 1 < w.commits.length →
    Event.promptDegenerate ∈ (runDates w ev a e true).events := by
  unfold runDates
  split
  · split
    · split
      · intro h
        exact absurd h (preRebase_not_mem ev hev _ (by decide) (by decide))
      · split
        · split
          · intro _ _ _
            exact runTz_mem_ev w _ a e true _ _ _ (List.mem_append_right _ (by simp))
          · intro h
            exact absurd h (not_mem_append_ev _ _ _
              (preRebase_not_mem ev hev _ (by decide) (by decide)) (by decide))
        · rename_i st et heq1 heq2 hlt hdeg
          intro _ hiso hn
          rw [heq1, heq2] at hiso
          exact absurd ⟨(Option.some.injEq .. ▸ hiso).symm, hn⟩ hdeg
    · intro h
      exact absurd h (preRebase_not_mem ev hev _ (by decide) (by decide))
  · rename_i hed
    exact absurd rfl hed

lemma runMain_c6c (w : World) (ev : List Event) (hev : PreRebase ev) :
    Event.rebaseRun ∈ (runMain w ev true).events →
    w.isoStart = w.isoEnd → 1 < w.commits.length →
    Event.promptDegenerate ∈ (runMain w ev true).events := by
  have hev3 : PreRebase (resolveEmailEvents w (resolveAuthorEvents w ev) ++
      [Event.remoteSet]) :=
    preRebase_append _ _ (preRebase_resolveEmail w _ (preRebase_resolveAuthor w _ hev))
      (by decide)
  unfold runMain
  split
  · split
    · split
      · split
        · intro h
          exact absurd h (preRebase_not_mem _
            (preRebase_resolveEmail w _ (preRebase_resolveAuthor w _ hev)) _
            (by decide) (by decide))
        · split
          · intro h
            exact absurd h (preRebase_not_mem _ hev3 _ (by decide) (by decide))
          · exact runDates_c6c w _ _ _ hev3
      · intro h
        exact absurd h (preRebase_not_mem ev hev _ (by decide) (by decide))
    · intro h
      exact absurd h (preRebase_not_mem ev hev _ (by decide) (by decide))
  · intro h
    exact absurd h (preRebase_not_mem ev hev _ (by decide) (by decide))

/-- C6 (amended): when the interval is degenerate (start equals end) and
more than one commit exists, the run asks for explicit confirmation before
the rewrite executes; a declining answer exits with code 0 having mutated
no history — but the remote origin URL has already been created or
updated by then, so the mutation count is not zero.  When at most one
commit exists the confirmation prompt is never issued. -/
theorem degenerate_confirmation_amended (w : World) :
    C6Decline (run w) ∧
    (w.commits.length ≤ 1 → Event.promptDegenerate ∉ (run w).events) ∧
    (w.argStartTime ≠ "" → Event.rebaseRun ∈ (run w).events →
      w.isoStart = w.isoEnd → 1 < w.commits.length →
      Event.promptDegenerate ∈ (run w).events) := by
  refine ⟨?_, fun hn => ?_, fun hst => ?_⟩
  · unfold run
    split
    · exact runMain_c6a w _ true (preRebase_initial w)
    · split
      · intro hc
        simp at hc
      · split
        · exact runMain_c6a w _ true
            (preRebase_append _ _ (preRebase_initial w) (by decide))
        · exact runMain_c6a w _ false
            (preRebase_append _ _ (preRebase_initial w) (by decide))
  · have hnd0 : Event.promptDegenerate ∉ initialEvents w := by
      unfold initialEvents
      split <;> decide
    unfold run
    split
    · exact runMain_noDegen w _ true hn hnd0
    · split
      · simpa using hnd0
      · split
        · exact runMain_noDegen w _ true hn
            (not_mem_append_ev _ _
              [.promptEditDates, .promptStartDate, .promptEndDate] hnd0 (by decide))
        · exact runMain_noDegen w _ false hn
            (not_mem_append_ev _ _ [.promptEditDates] hnd0 (by decide))
  · unfold run
    split
    · exact runMain_c6c w _ (preRebase_initial w)
    · rename_i hst'
      exact absurd hst hst'

/-- C6 counterexample: in the degenerate three-commit world the operator
declines, the run exits 0 — yet the remote origin URL has already been
updated, so the repository has not seen zero mutation. -/
theorem degenerate_decline_mutates_remote :
    (run wDegenerate).exit = 0 ∧
    (run wDegenerate).reason = ExitReason.degenerateDeclined ∧
    Event.remoteSet ∈ (run wDegenerate).events := by
  refine ⟨?_, ?_, ?_⟩ <;> decide

/-- C6 witness: the amended theorem at the degenerate declining world and
at the single-commit world. -/
theorem degenerate_confirmation_amended_witness :
    ((run wDegenerate).exit = 0 ∧
      Event.promptDegenerate ∈ (run wDegenerate).events ∧
      Event.remoteSet ∈ (run wDegenerate).events ∧
      Event.rebaseRun ∉ (run wDegenerate).events ∧
      Event.reflogExpire ∉ (run wDegenerate).events ∧
      Event.gcRun ∉ (run wDegenerate).events ∧
      Event.pushRun ∉ (run wDegenerate).events) ∧
    Event.promptDegenerate ∉ (run wBase).events :=
  ⟨(degenerate_confirmation_amended wDegenerate).1 (by decide),
   (degenerate_confirmation_amended wBase).2.1 (by decide)⟩

lemma initialEvents_not_mem (w : World) (x : Event)
    (hx : x ≠ Event.promptRemoteUrl) : x ∉ initialEvents w := by
  unfold initialEvents
  split
  · simpa using hx
  · simp

lemma runDates_c8 (w : World) (ev : List Event) (a e : String) (ed : Bool) :
    C8Post (runDates w ev a e ed) := by
  intro hc
  rcases runDates_reason w ev a e ed with h | h | h | h | h | h <;>
    rw [h] at hc <;> cases hc

lemma runMain_c8 (w : World) (ev : List Event) (ed : Bool)
    (h1 : ev.filter isMutation = [])
    (h2 : Event.promptDegenerate ∉ ev) (h3 : Event.promptPush ∉ ev)
    (h4 : Event.promptAuthorName ∉ ev) (h5 : Event.promptAuthorEmail ∉ ev) :
    C8Post (runMain w ev ed) := by
  unfold runMain
  split
  · split
    · split
      · split
        · intro hc
          simp at hc
        · split
          · intro hc
            simp at hc
          · exact runDates_c8 w _ _ _ ed
      · intro _
        exact ⟨rfl, by simp, h1, h2, h3, h4, h5⟩
    · intro hc
      simp at hc
  · intro hc
    simp at hc

/-- C8 (amended): a dirty working state aborts the run immediately with
exit code 1 and an explanatory error message; no interactive confirmation
is requested (no confirmation or identity prompt is ever issued on that
path, unlike the degenerate-interval case) and nothing is mutated. -/
theorem dirty_worktree_amended (w : World) : C8Post (run w) := by
  unfold run
  split
  · exact runMain_c8 w _ true (initialEvents_filter w)
      (initialEvents_not_mem w _ (by decide)) (initialEvents_not_mem w _ (by decide))
      (initialEvents_not_mem w _ (by decide)) (initialEvents_not_mem w _ (by decide))
  · split
    · intro hc
      simp at hc
    · split
      · exact runMain_c8 w _ true
          (by rw [List.filter_append, initialEvents_filter]; rfl)
          (not_mem_append_ev _ _ _ (initialEvents_not_mem w _ (by decide)) (by decide))
          (not_mem_append_ev _ _ _ (initialEvents_not_mem w _ (by decide)) (by decide))
          (not_mem_append_ev _ _ _ (initialEvents_not_mem w _ (by decide)) (by decide))
          (not_mem_append_ev _ _ _ (initialEvents_not_mem w _ (by decide)) (by decide))
      · exact runMain_c8 w _ false
          (by rw [List.filter_append, initialEvents_filter]; rfl)
          (not_mem_append_ev _ _ _ (initialEvents_not_mem w _ (by decide)) (by decide))
          (not_mem_append_ev _ _ _ (initialEvents_not_mem w _ (by decide)) (by decide))
          (not_mem_append_ev _ _ _ (initialEvents_not_mem w _ (by decide)) (by decide))
          (not_mem_append_ev _ _ _ (initialEvents_not_mem w _ (by decide)) (by decide))

/-- C8 counterexample: with all flags supplied and a dirty worktree the
run aborts with exit code 1 having issued no prompt whatsoever — no
interactive confirmation is requested, contrary to the claim. -/
theorem dirty_worktree_no_confirmation :
    (run wDirty).exit = 1 ∧
    (run wDirty).reason = ExitReason.dirtyWorktree ∧
    (run wDirty).events = [] := by
  refine ⟨?_, ?_, ?_⟩ <;> decide

/-- C8 witness: the amended theorem at the dirty-worktree world. -/
theorem dirty_worktree_amended_witness :
    (run wDirty).exit = 1 ∧
    "Error: working directory has uncommitted changes. Please commit or stash before rewriting history."
      ∈ (run wDirty).errLines ∧
    (run wDirty).events.filter isMutation = [] ∧
    Event.promptDegenerate ∉ (run wDirty).events ∧
    Event.promptPush ∉ (run wDirty).events ∧
    Event.promptAuthorName ∉ (run wDirty).events ∧
    Event.promptAuthorEmail ∉ (run wDirty).events :=
  dirty_worktree_amended wDirty (by decide)

lemma escape_ne_empty (s : String) (h : s ≠ "") :
    escape_shell_single_quote s ≠ "" := by
  obtain ⟨l⟩ := s
  cases l with
  | nil => exact absurd rfl h
  | cons c cs =>
    unfold escape_shell_single_quote
    intro hc
    have hdata : (c :: cs).flatMap (fun c =>
        if c = Char.ofNat 39 then
          [Char.ofNat 39, Char.ofNat 34, Char.ofNat 39, Char.ofNat 34, Char.ofNat 39]
        else [c]) = [] := congrArg String.data hc
    rw [List.flatMap_cons] at hdata
    rcases List.append_eq_nil.mp hdata with ⟨h1, _⟩
    by_cases hq : c = Char.ofNat 39
    · rw [if_pos hq] at h1
      cases h1
    · rw [if_neg hq] at h1
      cases h1

lemma runRebase_script (w : World) (ev : List Event) (s : List ScriptLine) :
    (runRebase w ev s).script = s := by
  unfold runRebase
  split
  · split
    · rfl
    · split <;> rfl
  · rfl

lemma runTz_c9 (w : World) (ev : List Event) (a e : String) (ed : Bool)
    (st : Option Int) (sp : Int) (ha : a ≠ "") (he : e ≠ "")
    (hint : w.argAuthorName = "" → w.configUserName = "" →
      a = clean_input (pyStrip w.promptAuthorName)) :
    C9Exec w (runTz w ev a e ed st sp) := by
  unfold runTz
  split
  · intro cn ce d aa hm
    simp at hm
  · intro cn ce d aa hm
    rw [runRebase_script] at hm
    unfold buildScript at hm
    obtain ⟨h1, h2, _⟩ := buildScriptAux_execMem _ _ _ 0 w.commits cn ce d aa hm
    refine ⟨h1 ▸ escape_ne_empty a ha, h2 ▸ escape_ne_empty e he, fun hf hc => ?_⟩
    rw [h1, hint hf hc]

lemma runDates_c9 (w : World) (ev : List Event) (a e : String) (ed : Bool)
    (ha : a ≠ "") (he : e ≠ "")
    (hint : w.argAuthorName = "" → w.configUserName = "" →
      a = clean_input (pyStrip w.promptAuthorName)) :
    C9Exec w (runDates w ev a e ed) := by
  unfold runDates
  split
  · split
    · split
      · intro cn ce d aa hm
        simp at hm
      · split
        · split
          · exact runTz_c9 w _ a e true _ _ ha he hint
          · intro cn ce d aa hm
            simp at hm
        · exact runTz_c9 w ev a e true _ _ ha he hint
    · intro cn ce d aa hm
      simp at hm
  · exact runTz_c9 w ev a e false none 0 ha he hint

lemma runMain_c9 (w : World) (ev : List Event) (ed : Bool) :
    C9Exec w (runMain w ev ed) := by
  unfold runMain
  split
  · split
    · split
      · split
        · intro cn ce d aa hm
          simp at hm
        · split
          · intro cn ce d aa hm
            simp at hm
          · rename_i hid _
            rw [not_or] at hid
            refine runDates_c9 w _ _ _ ed (fun hz => hid.1 hz) (fun hz => hid.2 hz) ?_
            intro hf hc
            unfold resolveAuthor
            simp [hf, hc]
      · intro cn ce d aa hm
        simp at hm
    · intro cn ce d aa hm
      simp at hm
  · intro cn ce d aa hm
    simp at hm

/-- C9 (amended): every rewrite instruction in the generated script uses
a non-empty name and email (the emptiness check covers all three sources),
but only interactively entered values pass through `clean_input`: a name
supplied via the command-line flag or via git config is used verbatim and
may contain control characters. -/
theorem identity_in_plan_amended (w : World) :
    ∀ cn ce d a, ScriptLine.exec cn ce d a ∈ (run w).script →
      cn ≠ "" ∧ ce ≠ "" ∧
      (w.argAuthorName = "" → w.configUserName = "" →
        cn = escape_shell_single_quote (clean_input (pyStrip w.promptAuthorName))) := by
  unfold run
  split
  · exact runMain_c9 w _ true
  · split
    · intro cn ce d aa hm
      simp at hm
    · split
      · exact runMain_c9 w _ true
      · exact runMain_c9 w _ false

/-- C9 counterexample: an author name passed as a command-line flag with
the control character 0x01 reaches the rewrite instructions unsanitised —
the claimed control-character-freedom does not hold for flag-supplied
identities. -/
theorem flag_identity_keeps_ctrl_chars :
    Event.rebaseRun ∈ (run wCtrlName).events ∧
    (run wCtrlName).script.any execNameHasCtrl = true := by
  refine ⟨?_, ?_⟩ <;> decide

/-- C9 witness: the amended theorem at the world whose author name is
prompted interactively as " Bob ", which reaches the plan as "Bob". -/
theorem identity_in_plan_amended_witness :
    "Bob" ≠ "" ∧ "a@x" ≠ "" ∧
    (wPromptedName.argAuthorName = "" → wPromptedName.configUserName = "" →
      "Bob" = escape_shell_single_quote (clean_input (pyStrip
        wPromptedName.promptAuthorName))) :=
  identity_in_plan_amended wPromptedName "Bob" "a@x" none "Bob <a@x>" (by decide)

/-- C10: supplying an end time without a start time is rejected up front:
exit code 1 with the explanatory message, before any date prompt has been
issued and before any repository mutation. -/
theorem end_without_start_rejected (w : World) (h1 : w.argStartTime = "")
    (h2 : w.argEndTime ≠ "") :
    (run w).exit = 1 ∧ (run w).reason = ExitReason.endWithoutStart ∧
    (run w).events.filter isMutation = [] ∧
    Event.promptEditDates ∉ (run w).events ∧
    Event.promptStartDate ∉ (run w).events ∧
    Event.promptEndDate ∉ (run w).events ∧
    "Error: --start-time must be provided if --end-time is specified."
      ∈ (run w).errLines := by
  unfold run
  rw [if_neg (by simp [h1]), if_pos h2]
  exact ⟨rfl, rfl, initialEvents_filter w,
    initialEvents_not_mem w _ (by decide), initialEvents_not_mem w _ (by decide),
    initialEvents_not_mem w _ (by decide), by simp⟩

/-- C10 witness: the theorem at the concrete end-time-only world. -/
theorem end_without_start_rejected_witness :
    (run wEndOnly).exit = 1 ∧ (run wEndOnly).reason = ExitReason.endWithoutStart ∧
    (run wEndOnly).events.filter isMutation = [] ∧
    Event.promptEditDates ∉ (run wEndOnly).events ∧
    Event.promptStartDate ∉ (run wEndOnly).events ∧
    Event.promptEndDate ∉ (run wEndOnly).events ∧
    "Error: --start-time must be provided if --end-time is specified."
      ∈ (run wEndOnly).errLines :=
  end_without_start_rejected wEndOnly (by decide) (by decide)

/-- C2 counterexample: a world whose only defect is an empty commit
history exits non-zero with the empty-history validation error, yet the
remote origin URL has already been updated at that point — the claim that
nothing has been touched on such exits is false. -/
theorem validation_after_remote_mutation :
    (run wEmptyHistory).exit = 1 ∧
    (run wEmptyHistory).reason = ExitReason.emptyHistory ∧
    Event.remoteSet ∈ (run wEmptyHistory).events := by
  refine ⟨?_, ?_, ?_⟩ <;> decide

/-- C2 witness: the amended theorem applied at the empty-history world. -/
theorem validation_before_mutation_amended_witness :
    (run wEmptyHistory).exit = 1 ∧
    (run wEmptyHistory).events.filter isMutation = [Event.remoteSet] :=
  (validation_before_mutation_amended wEmptyHistory).2 (Or.inl (by decide))

/-- C7 witness: the invariants at a concrete two-commit plan. -/
theorem build_plan_invariants_witness :
    (buildScript ["c1", "c2"] "Ann" "a@x" (fun _ => none)).filterMap pickTarget
        = ["c1", "c2"] ∧
    ((buildScript ["c1", "c2"] "Ann" "a@x" (fun _ => none)).filter isExecLine).length = 2 ∧
    (∀ cn ce d a,
      ScriptLine.exec cn ce d a ∈ buildScript ["c1", "c2"] "Ann" "a@x" (fun _ => none) →
      cn = escape_shell_single_quote "Ann" ∧ ce = escape_shell_single_quote "a@x" ∧
      a = cn ++ " <" ++ ce ++ ">") :=
  build_plan_invariants ["c1", "c2"] "Ann" "a@x" (fun _ => none) (by decide)
